import Mathlib

/-! # bax2bam: run orchestration and dataset-descriptor rewrite

A shallow embedding of `src/utils/bax2bam/src/Bax2Bam.cpp`:

* `Bax2Bam.Run` (lines 135-172), the selection and invocation of one conversion
  strategy followed by the optional descriptor rewrite;
* `internal::WriteDatasetXmlOutput` (lines 32-131), the rewrite of the dataset descriptor;
* `internal::CurrentWorkingDir` (lines 23-30).

Everything the file reaches through a library (the descriptor document model, the
converters, the clock, the working directory, the file system) is a field of `World`, so
every function below is a total, executable function of the world and the settings.
Effects are returned explicitly: the lines written to `cerr`, the error vector, and a
trace of the calls that were made.

`assert` is embedded as it is compiled with `NDEBUG`: it has no effect.
-/

namespace Bax2Bam

/-! ## Strings -/

/-- The member `std::string::empty`. -/
def empty (s : String) : Bool :=
  s.data.isEmpty

/-- The function `boost::starts_with(input, test)`: `test` is an initial segment of `input`. -/
def starts_with (input test : String) : Bool :=
  test.data.isPrefixOf input.data

/-- The comparison `boost::is_iequal`: two characters are equal once both are upper-cased. -/
def is_iequal (a b : Char) : Bool :=
  a.toUpper == b.toUpper

/-- The inner loop of boost's `first_finderF`: does `search` match at the start of `input`
(character by character under `is_iequal`)? -/
def matchesAt : List Char → List Char → Bool
  | _, [] => true
  | [], _ :: _ => false
  | c :: cs, p :: ps => is_iequal c p && matchesAt cs ps

/-- The outer loop of boost's `first_finderF`, started at offset `pos` with `input` left to
scan: the half-open range `(begin, end)` of the first match, or `(End, End)`, the empty range
at the end of the input, when there is none (also when `search` is empty). -/
def first_finder (search : List Char) : (input : List Char) → (pos : Nat) → Nat × Nat
  | [], pos => (pos, pos)
  | c :: cs, pos =>
    if search.isEmpty then (pos + (c :: cs).length, pos + (c :: cs).length)
    else if matchesAt (c :: cs) search then (pos, pos + search.length)
    else first_finder search cs (pos + 1)

/-- The function `boost::algorithm::ifind_first(input, search)`: the range of the first
case-insensitive occurrence of `search` in `input`. -/
def ifind_first (input search : String) : Nat × Nat :=
  first_finder search.data input.data 0

/-- The member `boost::iterator_range::empty`: begin equals end. -/
def rangeEmpty (r : Nat × Nat) : Bool :=
  r.1 == r.2

/-! ## The descriptor document model (pbbam, reached through typed accessors) -/

/-- Modelled from the spec: the class `PacBio::BAM::FileIndex` is declared in pbbam, not under
`src/`; section 3 gives it a metatype and a path, no further structure. -/
structure FileIndex where
  metaType : String
  path : String
deriving DecidableEq, Repr

/-- Modelled from the spec: the class `PacBio::BAM::ExternalResource` is declared in pbbam, not
under `src/`; section 3 gives it a metatype, a path (its resource id), its file indices and the
external resources nested beneath it. -/
inductive ExternalResource where
  | mk (metaType : String) (resourceId : String) (fileIndices : List FileIndex)
      (externalResources : List ExternalResource)

namespace ExternalResource

/-- Accessor `ExternalResource::MetaType()`. -/
def MetaType : ExternalResource → String
  | mk m _ _ _ => m

/-- Accessor `ExternalResource::ResourceId()`, the stored path. -/
def ResourceId : ExternalResource → String
  | mk _ p _ _ => p

/-- Accessor `ExternalResource::FileIndices()`. -/
def FileIndices : ExternalResource → List FileIndex
  | mk _ _ f _ => f

/-- Accessor `ExternalResource::ExternalResources()`, the nested resources. -/
def ExternalResources : ExternalResource → List ExternalResource
  | mk _ _ _ n => n

/-- The constructor `ExternalResource{ metatype, filename }`: no index, nothing nested. -/
def new (metatype filename : String) : ExternalResource :=
  mk metatype filename [] []

/-- The call `e.FileIndices().Add(index)`: appended after the indices already there. -/
def addFileIndex (e : ExternalResource) (index : FileIndex) : ExternalResource :=
  mk e.MetaType e.ResourceId (e.FileIndices ++ [index]) e.ExternalResources

/-- The call `e.ExternalResources().Add(child)`: appended after the nested resources already
there. -/
def addExternalResource (e child : ExternalResource) : ExternalResource :=
  mk e.MetaType e.ResourceId e.FileIndices (e.ExternalResources ++ [child])

mutual
/-- Equality of two resources is decidable (`operator==` of the document model compares the
attributes and the children). -/
def decEq : (a b : ExternalResource) → Decidable (a = b)
  | mk m1 p1 f1 n1, mk m2 p2 f2 n2 =>
    if hm : m1 = m2 then
      if hp : p1 = p2 then
        if hf : f1 = f2 then
          match decEqList n1 n2 with
          | isTrue hn => isTrue (by rw [hm, hp, hf, hn])
          | isFalse hn => isFalse (fun h => hn (by injection h))
        else isFalse (fun h => hf (by injection h))
      else isFalse (fun h => hp (by injection h))
    else isFalse (fun h => hm (by injection h))
/-- Equality of two lists of resources is decidable. -/
def decEqList : (a b : List ExternalResource) → Decidable (a = b)
  | [], [] => isTrue rfl
  | [], _ :: _ => isFalse (fun h => by cases h)
  | _ :: _, [] => isFalse (fun h => by cases h)
  | a :: as, b :: bs =>
    match decEq a b with
    | isTrue h1 =>
      match decEqList as bs with
      | isTrue h2 => isTrue (by rw [h1, h2])
      | isFalse h2 => isFalse (fun h => h2 (by injection h))
    | isFalse h1 => isFalse (fun h => h1 (by injection h))
end

instance : DecidableEq ExternalResource := decEq

end ExternalResource

/-- The collection `PacBio::BAM::ExternalResources`, in document order. -/
abbrev ExternalResources := List ExternalResource

/-- Modelled from the spec: `ExternalResources::Add` is pbbam's (section 6, add external
resources; section 3, an ordered collection): `resources.Add(e)` appends `e` as the last
child. -/
def ExternalResources.Add (resources : ExternalResources) (e : ExternalResource) :
    ExternalResources :=
  resources ++ [e]

/-- Modelled from the spec: `ExternalResources::Remove` is pbbam's (section 6, remove external
resources): `resources.Remove(e)` removes the children equal to `e`, the others keep their
order. -/
def ExternalResources.Remove (resources : ExternalResources) (e : ExternalResource) :
    ExternalResources :=
  List.filter (fun child => decide (child ≠ e)) resources

/-- Modelled from the spec: the enumeration `DataSet::TypeEnum` is declared in pbbam; the source
names two of its values, `other` stands for the rest. -/
inductive TypeEnum where
  | HDF_SUBREAD
  | SUBREAD
  | other (tag : String)
deriving DecidableEq, Repr

/-- Modelled from the spec: the class `PacBio::BAM::DataSet` is declared in pbbam; section 3
gives the fields the rewrite reads or writes, and `rest` stands for every other attribute and
child element of the document. -/
structure DataSet where
  type : TypeEnum
  metaType : String
  createdAt : String
  timeStampedName : String
  externalResources : ExternalResources
  rest : List (String × String)
deriving DecidableEq

/-! ## Settings -/

/-- Modelled from the spec: the enumeration `Settings::Mode` is declared in `Settings.h`, not
under `src/`: the four enumerators the switch names, and any other value of the underlying
integer (which reaches the `default` arm). -/
inductive Mode where
  | HQRegionMode
  | PolymeraseMode
  | SubreadMode
  | CCSMode
  | unrecognized (raw : Int)
deriving DecidableEq, Repr

/-- Modelled from the spec: the class `Settings` is declared in `Settings.h`, not under `src/`;
these are the fields `Bax2Bam.cpp` reads. Section 3: the settings do not change during a
run. -/
structure Settings where
  mode : Mode
  outputBamFilename : String
  scrapsBamFilename : String
  outputBamPrefix : String
  datasetXmlFilename : String
  outputXmlFilename : String
deriving DecidableEq, Repr

/-! ## Converters, the world, and what a run leaves behind -/

/-- The four classes implementing `IConverter`. -/
inductive ConverterKind where
  | HqRegionConverter
  | PolymeraseReadConverter
  | SubreadConverter
  | CcsConverter
deriving DecidableEq, Repr

/-- Modelled from the spec: the interface `IConverter` and its four implementations are not
under `src/`; section 6 gives `Run() -> bool` and `Errors() -> ordered sequence of strings`.
This is what a run observes of a constructed converter: the value its `Run()` returns and the
messages its `Errors()` holds afterwards. -/
structure IConverter where
  Run : Bool
  Errors : List String
deriving DecidableEq, Repr

/-- The calls a run makes on its collaborators, in the order they are made. -/
inductive Event where
  | construct (k : ConverterKind)
  | converterRun (k : ConverterKind)
  | writeDatasetXmlOutput
  | load (filename : String)
  | save (filename : String) (dataset : DataSet)
deriving DecidableEq

/-- Everything outside `Bax2Bam.cpp` that its behaviour depends on. -/
structure World where
  /-- The result of `getcwd`: `none` is the null pointer. -/
  getcwd : Option String
  /-- The value of `time(NULL)`. -/
  time : Int
  /-- The pbbam function `ToIso8601`. -/
  ToIso8601 : Int → String
  /-- The pbbam function `ToDataSetFormat`. -/
  ToDataSetFormat : Int → String
  /-- The constructor `DataSet(filename)`: `none` when it throws. -/
  load : String → Option DataSet
  /-- Whether one of the in-memory mutators between load and save throws. -/
  mutationThrows : Bool
  /-- Whether `dataset.Save(filename)` throws. -/
  saveThrows : DataSet → String → Bool
  /-- The converter of each kind built from the settings. -/
  converter : ConverterKind → Settings → IConverter

/-- The value `EXIT_SUCCESS`. -/
def EXIT_SUCCESS : Int := 0

/-- The value `EXIT_FAILURE`. -/
def EXIT_FAILURE : Int := 1

/-- What `WriteDatasetXmlOutput` returns and leaves behind: its return value, the vector
behind `errors` after the call, and the calls it made. -/
structure RewriteResult where
  ret : Bool
  errors : List String
  trace : List Event
deriving DecidableEq

/-- What `Run` returns and leaves behind: its return value, the lines written to `cerr`,
and the calls it made. -/
structure RunResult where
  exit : Int
  cerr : List String
  trace : List Event
deriving DecidableEq

/-! ## `internal::CurrentWorkingDir` (lines 23-30) -/

/-- The working directory, or the empty string when `getcwd` fails. -/
def CurrentWorkingDir (w : World) : String :=
  match w.getcwd with
  | none => ""
  | some result => result

/-! ## `internal::WriteDatasetXmlOutput` (lines 32-131) -/

/-- Lines 59-60, the test of the scan: the range `ifind_first` returns for the metatype and
`"bax"` is not empty. -/
def isLegacy (e : ExternalResource) : Bool :=
  let baxFound := ifind_first e.MetaType "bax"
  !rangeEmpty baxFound

/-- Lines 55-62, the scan. `toRemove` is kept with its back at the head of the list, so
`push_back` is a cons. -/
def scanLegacy : (resources : List ExternalResource) → (toRemove : List ExternalResource) →
    List ExternalResource
  | [], toRemove => toRemove
  | e :: rest, toRemove =>
    if isLegacy e then scanLegacy rest (e :: toRemove)
    else scanLegacy rest toRemove

/-- Lines 64-68, the removal loop: `back()` is the head of `toRemove`, `pop_back` its
tail. -/
def removeLegacy : (toRemove : List ExternalResource) → (resources : ExternalResources) →
    ExternalResources
  | [], resources => resources
  | e :: rest, resources => removeLegacy rest (resources.Remove e)

/-- The other reading of `resources.Remove(e)`: only the first child equal to `e` is
erased. -/
def ExternalResources.RemoveFirst (resources : ExternalResources) (e : ExternalResource) :
    ExternalResources :=
  List.erase resources e

/-- Lines 64-68 under that other reading of `Remove`. -/
def removeLegacyFirst : (toRemove : List ExternalResource) → (resources : ExternalResources) →
    ExternalResources
  | [], resources => resources
  | e :: rest, resources => removeLegacyFirst rest (resources.RemoveFirst e)

/-- Line 70. -/
def scheme : String := "file://"

/-- Lines 71-87: the value of `mainBamFilepath` once the scheme is prepended. -/
def mainBamFilepath (w : World) (settings : Settings) : String :=
  let path :=
    if starts_with settings.outputBamFilename "/" then
      settings.outputBamFilename
    else
      let cwd := CurrentWorkingDir w
      let cwd := if !empty cwd then cwd ++ "/" else cwd
      cwd ++ settings.outputBamFilename
  scheme ++ path

/-- Lines 95-108: the value of `scrapsBamFilepath`. -/
def scrapsBamFilepath (w : World) (settings : Settings) : String :=
  if starts_with settings.scrapsBamFilename "/" then
    settings.scrapsBamFilename
  else
    let cwd := CurrentWorkingDir w
    let cwd := if !empty cwd then cwd ++ "/" else cwd
    cwd ++ settings.scrapsBamFilename

/-- Lines 110-112: the scraps resource with its index. -/
def scrapsBam (w : World) (settings : Settings) : ExternalResource :=
  let scrapsBam := ExternalResource.new "PacBio.SubreadFile.ScrapsBamFile"
    (scrapsBamFilepath w settings)
  let scrapsPbi : FileIndex := ⟨"PacBio.Index.PacBioIndex", scrapsBamFilepath w settings ++ ".pbi"⟩
  scrapsBam.addFileIndex scrapsPbi

/-- Lines 88-114: the primary resource with its index and, when a scraps file is named, the
scraps resource nested beneath it. -/
def mainBam (w : World) (settings : Settings) : ExternalResource :=
  let mainBam := ExternalResource.new "PacBio.SubreadFile.SubreadBamFile"
    (mainBamFilepath w settings)
  let mainPbi : FileIndex := ⟨"PacBio.Index.PacBioIndex", mainBamFilepath w settings ++ ".pbi"⟩
  let mainBam := mainBam.addFileIndex mainPbi
  if !empty settings.scrapsBamFilename then
    mainBam.addExternalResource (scrapsBam w settings)
  else mainBam

/-- Lines 44-118: the descriptor as it stands when `Save` is called. -/
def rewriteDataSet (w : World) (settings : Settings) (dataset : DataSet) : DataSet :=
  let dataset := { dataset with type := TypeEnum.SUBREAD }
  let dataset := { dataset with metaType := "PacBio.DataSet.SubreadSet" }
  let currentTime := w.time
  let dataset := { dataset with createdAt := w.ToIso8601 currentTime }
  let dataset := { dataset with
    timeStampedName := "pacbio_dataset_subreadset-" ++ w.ToDataSetFormat currentTime }
  let resources := dataset.externalResources
  let toRemove := scanLegacy resources []
  let resources := removeLegacy toRemove resources
  let resources := resources.Add (mainBam w settings)
  { dataset with externalResources := resources }

/-- Lines 121-123: the file the descriptor is saved to. -/
def xmlFn (settings : Settings) : String :=
  if empty settings.outputXmlFilename then settings.outputBamPrefix ++ ".dataset.xml"
  else settings.outputXmlFilename

/-- The handler of lines 127-130. -/
def catchException (errors : List String) (trace : List Event) : RewriteResult :=
  ⟨false, errors ++ ["could not create output XML"], trace⟩

/-- The function `internal::WriteDatasetXmlOutput(settings, errors)`. -/
def WriteDatasetXmlOutput (w : World) (settings : Settings) (errors : List String) :
    RewriteResult :=
  match w.load settings.datasetXmlFilename with
  | none => catchException errors [Event.load settings.datasetXmlFilename]
  | some dataset =>
    if w.mutationThrows then
      catchException errors [Event.load settings.datasetXmlFilename]
    else
      let dataset := rewriteDataSet w settings dataset
      let trace := [Event.load settings.datasetXmlFilename, Event.save (xmlFn settings) dataset]
      if w.saveThrows dataset (xmlFn settings) then catchException errors trace
      else ⟨true, errors, trace⟩

/-! ## `Bax2Bam::Run` (lines 135-172) -/

/-- Lines 138-171, once `converter` has been reset to a new strategy of kind `k`. The triple
`state` holds `success`, `xmlErrors` and the calls made when line 162 is reached. -/
def runConversion (w : World) (settings : Settings) (k : ConverterKind) : RunResult :=
  let converter := w.converter k settings
  let trace := [Event.construct k, Event.converterRun k]
  let state : Bool × List String × List Event :=
    if converter.Run then
      if !empty settings.datasetXmlFilename then
        let r := WriteDatasetXmlOutput w settings []
        (if !r.ret then false else true, r.errors,
          trace ++ Event.writeDatasetXmlOutput :: r.trace)
      else (true, [], trace)
    else (false, [], trace)
  let success := state.1
  let xmlErrors := state.2.1
  if success then ⟨EXIT_SUCCESS, [], state.2.2⟩
  else
    ⟨EXIT_FAILURE,
      converter.Errors.map (fun e => "ERROR: " ++ e) ++ xmlErrors.map (fun e => "ERROR: " ++ e),
      state.2.2⟩

/-- Lines 139-147, the switch: the class each arm instantiates; `none` is the `default`
arm. -/
def selectConverter : Mode → Option ConverterKind
  | Mode.HQRegionMode => some ConverterKind.HqRegionConverter
  | Mode.PolymeraseMode => some ConverterKind.PolymeraseReadConverter
  | Mode.SubreadMode => some ConverterKind.SubreadConverter
  | Mode.CCSMode => some ConverterKind.CcsConverter
  | Mode.unrecognized _ => none

/-- The function `Bax2Bam::Run(settings)`. -/
def Run (w : World) (settings : Settings) : RunResult :=
  match selectConverter settings.mode with
  | none => ⟨EXIT_FAILURE, ["ERROR: unknown mode selected"], []⟩
  | some k => runConversion w settings k

/-! ## The filtering pass of the specification -/

/-- The test of the specification for a legacy resource (section 4.2, step 4): the metatype
contains `bax` as a substring once it is lower-cased. A second definition, written from the
words of the specification, for the loops of the source to be compared with. -/
def specContainsBax (metaType : String) : Bool :=
  (metaType.data.map Char.toLower).tails.any (fun t => List.isPrefixOf ['b', 'a', 'x'] t)

/-- The single filtering pass of the specification (sections 4.2 and 9): the entries whose
metatype does not contain `bax`, in their order, followed by the new primary resource. -/
def specFilteringPass (resources : List ExternalResource) (primary : ExternalResource) :
    List ExternalResource :=
  resources.filter (fun e => !specContainsBax e.MetaType) ++ [primary]

/-! ## Concrete worlds used to exercise the theorems -/

/-- A legacy descriptor with two per-movie files and one file of another kind. -/
def exampleDataSet : DataSet :=
  { type := TypeEnum.HDF_SUBREAD
    metaType := "PacBio.DataSet.HdfSubreadSet"
    createdAt := "2015-06-01T10:00:00"
    timeStampedName := "hdfsubreadset_150601_100000"
    externalResources :=
      [ExternalResource.new "PacBio.SubreadFile.BaxFile" "file:///data/m1.1.bax.h5",
       ExternalResource.new "PacBio.Adapter.Fasta" "file:///data/adapters.fasta",
       ExternalResource.new "PacBio.SubreadFile.BAXFile" "file:///data/m1.2.bax.h5"]
    rest := [("Name", "movie m1"), ("Tags", "raw")] }

/-- A world in which `in.xml` holds `exampleDataSet`, nothing throws, and every converter
succeeds without messages. -/
def exampleWorld : World :=
  { getcwd := some "/data/jobs/42"
    time := 0
    ToIso8601 := fun t => if t = 0 then "1970-01-01T00:00:00Z" else "later"
    ToDataSetFormat := fun t => if t = 0 then "700101_000000000" else "later"
    load := fun filename => if filename = "in.xml" then some exampleDataSet else none
    mutationThrows := false
    saveThrows := fun _ _ => false
    converter := fun _ _ => ⟨true, []⟩ }

/-- Settings naming a relative output file and no scraps file. -/
def exampleSettings : Settings :=
  { mode := Mode.SubreadMode
    outputBamFilename := "run1.bam"
    scrapsBamFilename := ""
    outputBamPrefix := "movieA"
    datasetXmlFilename := "in.xml"
    outputXmlFilename := "" }

/-- The settings of `exampleSettings` with a scraps file named as well. -/
def scrapsSettings : Settings :=
  { exampleSettings with scrapsBamFilename := "scraps.bam" }

/-- A descriptor that already lists a consolidated read container beside a per-movie file. -/
def mixedDataSet : DataSet :=
  { exampleDataSet with
    externalResources :=
      [ExternalResource.new "PacBio.SubreadFile.BaxFile" "file:///data/m1.1.bax.h5",
       ExternalResource.new "PacBio.SubreadFile.SubreadBamFile" "file:///data/old.subreads.bam"] }

/-- The world of `exampleWorld` in which `in.xml` holds `mixedDataSet`. -/
def mixedWorld : World :=
  { exampleWorld with
    load := fun filename => if filename = "in.xml" then some mixedDataSet else none }

/-- The world of `exampleWorld` in which saving the descriptor throws. -/
def unwritableWorld : World :=
  { exampleWorld with saveThrows := fun _ _ => true }

/-- The world of `exampleWorld` in which every converter fails with two messages. -/
def failingWorld : World :=
  { exampleWorld with converter := fun _ _ => ⟨false, ["no input", "bad movie"]⟩ }

/-- The world of `exampleWorld` in which `getcwd` fails. -/
def noCwdWorld : World :=
  { exampleWorld with getcwd := none }

/-- A descriptor of another declared type whose one retained resource has a per-movie file
nested beneath it. -/
def nestedDataSet : DataSet :=
  { exampleDataSet with
    type := TypeEnum.other "PacBio.DataSet.AlignmentSet"
    metaType := "PacBio.DataSet.AlignmentSet"
    externalResources :=
      [ExternalResource.new "PacBio.SubreadFile.BaxFile" "file:///data/m1.1.bax.h5",
       ExternalResource.mk "PacBio.Collection.Metadata" "file:///data/m1.metadata.xml" []
         [ExternalResource.new "PacBio.SubreadFile.BaxFile" "file:///data/m1.3.bax.h5"]] }

/-- The world of `exampleWorld` in which `in.xml` holds `nestedDataSet`. -/
def nestedWorld : World :=
  { exampleWorld with
    load := fun filename => if filename = "in.xml" then some nestedDataSet else none }

end Bax2Bam

namespace Bax2Bam

/-! ## Strings -/

theorem empty_iff (s : String) : empty s = true ↔ s = "" := by
  cases s with
  | mk l => cases l <;> simp [empty, String.ext_iff]

theorem starts_with_slash_iff (s : String) :
    starts_with s "/" = true ↔ ∃ rest : String, s = "/" ++ rest := by
  cases s with
  | mk l =>
    constructor
    · intro h
      cases l with
      | nil => simp [starts_with] at h
      | cons c cs =>
        have hc : c = '/' := by
          have h2 : '/' = c := by simpa [starts_with, List.isPrefixOf] using h
          exact h2.symm
        exact ⟨⟨cs⟩, by rw [hc]; rfl⟩
    · rintro ⟨rest, h⟩
      rw [h]
      simp [starts_with, String.data_append, List.isPrefixOf]

/-! ## Case-insensitive search -/

theorem toUpper_cases (c : Char) :
    c.toUpper = c ∨
      ∃ n, 97 ≤ n ∧ n ≤ 122 ∧ c = Char.ofNat n ∧ c.toUpper = Char.ofNat (n - 32) := by
  by_cases h : c.toNat ≥ 97 ∧ c.toNat ≤ 122
  · right
    refine ⟨c.toNat, h.1, h.2, (Char.ofNat_toNat c).symm, ?_⟩
    unfold Char.toUpper
    simp only [h, and_self, if_true]
  · left
    unfold Char.toUpper
    simp only [h, if_false]

theorem is_iequal_b (c : Char) : is_iequal c 'b' = true ↔ c = 'b' ∨ c = 'B' := by
  constructor
  · intro h
    have h1 : c.toUpper = 'B' := by
      have : c.toUpper = Char.toUpper 'b' := by simpa [is_iequal] using h
      rw [this]; decide
    rcases toUpper_cases c with h2 | ⟨n, hlo, hhi, hc, hu⟩
    · right; rw [← h2, h1]
    · rw [hu] at h1
      subst hc
      interval_cases n <;> first | (left; rfl) | (exfalso; revert h1; decide)
  · rintro (rfl | rfl) <;> decide

theorem is_iequal_a (c : Char) : is_iequal c 'a' = true ↔ c = 'a' ∨ c = 'A' := by
  constructor
  · intro h
    have h1 : c.toUpper = 'A' := by
      have : c.toUpper = Char.toUpper 'a' := by simpa [is_iequal] using h
      rw [this]; decide
    rcases toUpper_cases c with h2 | ⟨n, hlo, hhi, hc, hu⟩
    · right; rw [← h2, h1]
    · rw [hu] at h1
      subst hc
      interval_cases n <;> first | (left; rfl) | (exfalso; revert h1; decide)
  · rintro (rfl | rfl) <;> decide

theorem is_iequal_x (c : Char) : is_iequal c 'x' = true ↔ c = 'x' ∨ c = 'X' := by
  constructor
  · intro h
    have h1 : c.toUpper = 'X' := by
      have : c.toUpper = Char.toUpper 'x' := by simpa [is_iequal] using h
      rw [this]; decide
    rcases toUpper_cases c with h2 | ⟨n, hlo, hhi, hc, hu⟩
    · right; rw [← h2, h1]
    · rw [hu] at h1
      subst hc
      interval_cases n <;> first | (left; rfl) | (exfalso; revert h1; decide)
  · rintro (rfl | rfl) <;> decide

theorem matchesAt_bax (l : List Char) :
    matchesAt l ['b', 'a', 'x'] = true ↔
      ∃ (b a x : Char) (post : List Char), l = b :: a :: x :: post ∧
        (b = 'b' ∨ b = 'B') ∧ (a = 'a' ∨ a = 'A') ∧ (x = 'x' ∨ x = 'X') := by
  constructor
  · intro h
    match l, h with
    | b :: a :: x :: post, h =>
      simp only [matchesAt, Bool.and_eq_true, is_iequal_b, is_iequal_a, is_iequal_x] at h
      exact ⟨b, a, x, post, rfl, h.1, h.2.1, h.2.2.1⟩
    | [], h => simp [matchesAt] at h
    | [_], h => simp [matchesAt] at h
    | [_, _], h => simp [matchesAt] at h
  · rintro ⟨b, a, x, post, rfl, hb, ha, hx⟩
    simp only [matchesAt, Bool.and_eq_true, is_iequal_b, is_iequal_a, is_iequal_x]
    exact ⟨hb, ha, hx, trivial⟩

theorem first_finder_nonempty (search : List Char) (hs : search ≠ []) (input : List Char)
    (pos : Nat) :
    rangeEmpty (first_finder search input pos) = false ↔
      ∃ pre post, input = pre ++ post ∧ matchesAt post search = true := by
  have hlen : 0 < search.length := List.length_pos.2 hs
  have hnil : matchesAt [] search = false := by
    cases search with
    | nil => exact absurd rfl hs
    | cons p ps => rfl
  have hemp : search.isEmpty = false := by
    cases search with
    | nil => exact absurd rfl hs
    | cons p ps => rfl
  induction input generalizing pos with
  | nil =>
    simp only [first_finder, rangeEmpty, beq_self_eq_true, Bool.true_eq_false, false_iff]
    rintro ⟨pre, post, h, hm⟩
    have hp : post = [] := (List.append_eq_nil.1 h.symm).2
    rw [hp, hnil] at hm
    exact Bool.false_ne_true hm
  | cons c cs ih =>
    by_cases hm : matchesAt (c :: cs) search = true
    · simp only [first_finder, hemp, hm, if_true, Bool.false_eq_true, if_false, rangeEmpty]
      constructor
      · intro _
        exact ⟨[], c :: cs, rfl, hm⟩
      · intro _
        simp only [beq_eq_false_iff_ne, ne_eq]
        omega
    · simp only [first_finder, hemp, hm, Bool.false_eq_true, if_false]
      constructor
      · intro hr
        obtain ⟨pre, post, h, hp⟩ := (ih (pos + 1)).1 hr
        exact ⟨c :: pre, post, by rw [h]; rfl, hp⟩
      · rintro ⟨pre, post, h, hp⟩
        apply (ih (pos + 1)).2
        cases pre with
        | nil =>
          simp only [List.nil_append] at h
          rw [← h] at hp
          exact absurd hp hm
        | cons d pre =>
          simp only [List.cons_append, List.cons.injEq] at h
          exact ⟨pre, post, h.2, hp⟩

theorem isLegacy_iff (e : ExternalResource) :
    isLegacy e = true ↔
      ∃ (pre post : List Char) (b a x : Char), e.MetaType.data = pre ++ b :: a :: x :: post ∧
        (b = 'b' ∨ b = 'B') ∧ (a = 'a' ∨ a = 'A') ∧ (x = 'x' ∨ x = 'X') := by
  have h := first_finder_nonempty ['b', 'a', 'x'] (by simp) e.MetaType.data 0
  have hd : ("bax" : String).data = ['b', 'a', 'x'] := rfl
  simp only [isLegacy, ifind_first, hd, Bool.not_eq_true', h]
  constructor
  · rintro ⟨pre, post, hpp, hm⟩
    obtain ⟨b, a, x, rest, rfl, hb, ha, hx⟩ := (matchesAt_bax post).1 hm
    exact ⟨pre, rest, b, a, x, hpp, hb, ha, hx⟩
  · rintro ⟨pre, post, b, a, x, hpp, hb, ha, hx⟩
    exact ⟨pre, b :: a :: x :: post, hpp, (matchesAt_bax _).2 ⟨b, a, x, post, rfl, hb, ha, hx⟩⟩

/-! ## The scan and the removal loop -/

theorem scanLegacy_eq (resources toRemove : List ExternalResource) :
    scanLegacy resources toRemove = (resources.filter isLegacy).reverse ++ toRemove := by
  induction resources generalizing toRemove with
  | nil => rfl
  | cons e rest ih =>
    by_cases h : isLegacy e = true
    · simp [scanLegacy, h, ih]
    · simp [scanLegacy, h, ih]

theorem removeLegacy_eq (toRemove : List ExternalResource) (resources : ExternalResources) :
    removeLegacy toRemove resources =
      List.filter (fun child => decide (child ∉ toRemove)) resources := by
  induction toRemove generalizing resources with
  | nil => simp [removeLegacy]
  | cons e rest ih =>
    simp only [removeLegacy, ih, ExternalResources.Remove, List.filter_filter]
    apply List.filter_congr
    intro x _
    simp [Bool.and_comm]

/-- The collect-then-remove loops of lines 53-68 amount to one filtering pass. -/
theorem removeLegacy_scanLegacy (resources : ExternalResources) :
    removeLegacy (scanLegacy resources []) resources =
      List.filter (fun e => !isLegacy e) resources := by
  rw [removeLegacy_eq, scanLegacy_eq]
  apply List.filter_congr
  intro x hx
  simp [List.mem_filter, hx]

theorem removeLegacyFirst_of_perm (toRemove : List ExternalResource)
    (resources : ExternalResources)
    (h : toRemove.Perm (List.filter isLegacy resources)) :
    removeLegacyFirst toRemove resources = List.filter (fun e => !isLegacy e) resources := by
  induction toRemove generalizing resources with
  | nil =>
    have hnil : List.filter isLegacy resources = [] := List.Perm.eq_nil h.symm
    rw [List.filter_eq_nil_iff] at hnil
    simp only [removeLegacyFirst]
    symm
    rw [List.filter_eq_self]
    intro x hx
    simpa using hnil x hx
  | cons e rest ih =>
    have hmem : e ∈ List.filter isLegacy resources := h.subset (List.mem_cons_self e rest)
    have hp : isLegacy e = true := (List.mem_filter.1 hmem).2
    have hrest : rest.Perm (List.filter isLegacy (List.erase resources e)) := by
      rw [← List.erase_filter]
      have h2 := h.erase e
      rwa [List.erase_cons_head] at h2
    simp only [removeLegacyFirst, ExternalResources.RemoveFirst]
    rw [ih _ hrest, ← List.erase_filter]
    apply List.erase_of_not_mem
    intro hx
    have h3 := (List.mem_filter.1 hx).2
    simp [hp] at h3

/-- The result of the two loops is the same whether `Remove` removes every child equal to its
argument or only the first one. -/
theorem removeLegacyFirst_scanLegacy (resources : ExternalResources) :
    removeLegacyFirst (scanLegacy resources []) resources =
      removeLegacy (scanLegacy resources []) resources := by
  rw [removeLegacy_scanLegacy]
  apply removeLegacyFirst_of_perm
  rw [scanLegacy_eq, List.append_nil]
  exact List.reverse_perm _

/-! ## The rewrite -/

theorem save_mem_trace {w : World} {settings : Settings} {errors : List String}
    {filename : String} {saved : DataSet}
    (h : Event.save filename saved ∈ (WriteDatasetXmlOutput w settings errors).trace) :
    ∃ input, w.load settings.datasetXmlFilename = some input ∧ w.mutationThrows = false ∧
      filename = xmlFn settings ∧ saved = rewriteDataSet w settings input := by
  unfold WriteDatasetXmlOutput at h
  cases hl : w.load settings.datasetXmlFilename with
  | none => simp [hl, catchException] at h
  | some input =>
    cases hm : w.mutationThrows with
    | true => simp [hl, hm, catchException] at h
    | false =>
      refine ⟨input, rfl, rfl, ?_⟩
      simp only [hl, hm] at h
      by_cases hs : w.saveThrows (rewriteDataSet w settings input) (xmlFn settings) = true
      · simp [hs, catchException] at h
        exact ⟨h.1, h.2⟩
      · simp [hs] at h
        exact ⟨h.1, h.2⟩

theorem rewriteDataSet_externalResources (w : World) (settings : Settings) (input : DataSet) :
    (rewriteDataSet w settings input).externalResources =
      removeLegacy (scanLegacy input.externalResources []) input.externalResources
        ++ [mainBam w settings] := rfl

theorem mainBam_ResourceId (w : World) (settings : Settings) :
    (mainBam w settings).ResourceId = mainBamFilepath w settings := by
  unfold mainBam
  by_cases h : empty settings.scrapsBamFilename = true <;>
    simp [h, ExternalResource.addExternalResource, ExternalResource.addFileIndex,
      ExternalResource.new, ExternalResource.ResourceId, ExternalResource.MetaType,
      ExternalResource.FileIndices, ExternalResource.ExternalResources]

/-- C1: whenever the rewrite reaches `Save` and the working directory is not empty, the last
top-level resource of the descriptor being saved (the new primary resource) stores
`"file://" ++ outputBamFilename` when `outputBamFilename` begins with `/`, and
`"file://" ++ cwd ++ "/" ++ outputBamFilename` otherwise. -/
theorem primary_path_resolution (w : World) (settings : Settings) (errors : List String)
    (filename : String) (saved : DataSet)
    (hcwd : CurrentWorkingDir w ≠ "")
    (hsave : Event.save filename saved ∈ (WriteDatasetXmlOutput w settings errors).trace) :
    ∃ primary, saved.externalResources.getLast? = some primary ∧
      ((∃ rest : String, settings.outputBamFilename = "/" ++ rest) →
        primary.ResourceId = "file://" ++ settings.outputBamFilename) ∧
      ((¬ ∃ rest : String, settings.outputBamFilename = "/" ++ rest) →
        primary.ResourceId =
          "file://" ++ CurrentWorkingDir w ++ "/" ++ settings.outputBamFilename) := by
  obtain ⟨input, -, -, -, rfl⟩ := save_mem_trace hsave
  refine ⟨mainBam w settings, ?_, ?_, ?_⟩
  · rw [rewriteDataSet_externalResources]; simp
  · intro h
    rw [mainBam_ResourceId]
    simp [mainBamFilepath, (starts_with_slash_iff _).2 h, scheme]
  · intro h
    have hs : starts_with settings.outputBamFilename "/" = false := by
      rw [← Bool.not_eq_true, starts_with_slash_iff]; exact h
    have he : empty (CurrentWorkingDir w) = false := by
      rw [← Bool.not_eq_true, empty_iff]; exact hcwd
    rw [mainBam_ResourceId]
    simp [mainBamFilepath, hs, he, scheme, String.append_assoc]

/-- The example of the specification: `run1.bam` under `/data/jobs/42` is stored as
`file:///data/jobs/42/run1.bam`. -/
theorem primary_path_resolution_witness :
    CurrentWorkingDir exampleWorld ≠ "" ∧
      Event.save "movieA.dataset.xml" (rewriteDataSet exampleWorld exampleSettings exampleDataSet) ∈
        (WriteDatasetXmlOutput exampleWorld exampleSettings []).trace ∧
      ∃ primary,
        (rewriteDataSet exampleWorld exampleSettings exampleDataSet).externalResources.getLast?
          = some primary ∧
        primary.ResourceId = "file:///data/jobs/42/run1.bam" := by
  refine ⟨by decide, by decide, ?_⟩
  obtain ⟨primary, hlast, -, hrel⟩ :=
    primary_path_resolution exampleWorld exampleSettings [] "movieA.dataset.xml"
      (rewriteDataSet exampleWorld exampleSettings exampleDataSet) (by decide) (by decide)
  refine ⟨primary, hlast, ?_⟩
  have hno : ¬ ∃ rest : String, exampleSettings.outputBamFilename = "/" ++ rest := by
    rw [← starts_with_slash_iff]; decide
  rw [hrel hno]; decide

/-- C2, the code at `scrapsBamFilename = "scraps.bam"` under `/data/jobs/42`: the descriptor
that is saved has one scraps resource nested beneath the primary one, and its stored path is
`/data/jobs/42/scraps.bam`, without the scheme; the primary rule stores
`file:///data/jobs/42/scraps.bam` for an output of that name. -/
theorem scraps_path_lacks_scheme :
    ∃ saved primary scraps,
      Event.save "movieA.dataset.xml" saved ∈
        (WriteDatasetXmlOutput exampleWorld scrapsSettings []).trace ∧
      saved.externalResources.getLast? = some primary ∧
      primary.ExternalResources = [scraps] ∧
      scraps.ResourceId = "/data/jobs/42/scraps.bam" ∧
      mainBamFilepath exampleWorld { scrapsSettings with outputBamFilename := "scraps.bam" }
        = "file:///data/jobs/42/scraps.bam" :=
  ⟨rewriteDataSet exampleWorld scrapsSettings exampleDataSet, mainBam exampleWorld scrapsSettings,
    scrapsBam exampleWorld scrapsSettings, by decide, by decide, by decide, by decide, by decide⟩

theorem mainBam_ne_legacy (w : World) (settings : Settings) :
    isLegacy (mainBam w settings) = false := by
  have h : (mainBam w settings).MetaType = "PacBio.SubreadFile.SubreadBamFile" := by
    unfold mainBam
    by_cases h : empty settings.scrapsBamFilename = true <;>
      simp [h, ExternalResource.addExternalResource, ExternalResource.addFileIndex,
        ExternalResource.new, ExternalResource.MetaType]
  unfold isLegacy
  rw [h]
  decide

/-- C3: when the rewrite of a loaded descriptor reaches `Save`, a top-level resource of the
input is absent from the top-level resources of the descriptor being saved if and only if its
metatype contains `b`, `a`, `x` consecutively, each in either case; every other one is still
present. -/
theorem legacy_removal (w : World) (settings : Settings) (errors : List String)
    (filename : String) (saved input : DataSet) (e : ExternalResource)
    (hload : w.load settings.datasetXmlFilename = some input)
    (hsave : Event.save filename saved ∈ (WriteDatasetXmlOutput w settings errors).trace)
    (he : e ∈ input.externalResources) :
    e ∉ saved.externalResources ↔
      ∃ (pre post : List Char) (b a x : Char), e.MetaType.data = pre ++ b :: a :: x :: post ∧
        (b = 'b' ∨ b = 'B') ∧ (a = 'a' ∨ a = 'A') ∧ (x = 'x' ∨ x = 'X') := by
  obtain ⟨input2, hload2, -, -, rfl⟩ := save_mem_trace hsave
  rw [hload] at hload2
  cases hload2
  rw [← isLegacy_iff, rewriteDataSet_externalResources, removeLegacy_scanLegacy]
  simp only [List.mem_append, List.mem_filter, List.mem_singleton, he, true_and,
    Bool.not_eq_true', not_or]
  constructor
  · rintro ⟨h, -⟩
    simpa using h
  · intro h
    refine ⟨by simp [h], ?_⟩
    rintro rfl
    rw [mainBam_ne_legacy] at h
    exact Bool.false_ne_true h

/-- The resource of metatype `PacBio.SubreadFile.BAXFile` of `exampleDataSet`, upper-case
`BAX` included, is subject to the equivalence. -/
theorem legacy_removal_witness :
    exampleWorld.load exampleSettings.datasetXmlFilename = some exampleDataSet ∧
      ExternalResource.new "PacBio.SubreadFile.BAXFile" "file:///data/m1.2.bax.h5" ∈
        exampleDataSet.externalResources ∧
      (ExternalResource.new "PacBio.SubreadFile.BAXFile" "file:///data/m1.2.bax.h5" ∉
          (rewriteDataSet exampleWorld exampleSettings exampleDataSet).externalResources ↔
        ∃ (pre post : List Char) (b a x : Char),
          (ExternalResource.new "PacBio.SubreadFile.BAXFile" "file:///data/m1.2.bax.h5").MetaType.data
            = pre ++ b :: a :: x :: post ∧
          (b = 'b' ∨ b = 'B') ∧ (a = 'a' ∨ a = 'A') ∧ (x = 'x' ∨ x = 'X')) :=
  ⟨by decide, by decide,
    legacy_removal exampleWorld exampleSettings [] "movieA.dataset.xml"
      (rewriteDataSet exampleWorld exampleSettings exampleDataSet) exampleDataSet
      (ExternalResource.new "PacBio.SubreadFile.BAXFile" "file:///data/m1.2.bax.h5")
      (by decide) (by decide) (by decide)⟩

theorem ret_true {w : World} {settings : Settings} {errors : List String}
    (h : (WriteDatasetXmlOutput w settings errors).ret = true) :
    ∃ input, w.load settings.datasetXmlFilename = some input ∧
      (WriteDatasetXmlOutput w settings errors).trace =
        [Event.load settings.datasetXmlFilename,
          Event.save (xmlFn settings) (rewriteDataSet w settings input)] := by
  unfold WriteDatasetXmlOutput at h ⊢
  cases hl : w.load settings.datasetXmlFilename with
  | none => simp [hl, catchException] at h
  | some input =>
    cases hm : w.mutationThrows with
    | true => simp [hl, hm, catchException] at h
    | false =>
      refine ⟨input, rfl, ?_⟩
      by_cases hs : w.saveThrows (rewriteDataSet w settings input) (xmlFn settings) = true
      · simp [hl, hm, hs, catchException] at h
      · simp [hm, hs]

theorem mainBam_MetaType (w : World) (settings : Settings) :
    (mainBam w settings).MetaType = "PacBio.SubreadFile.SubreadBamFile" := by
  unfold mainBam
  by_cases h : empty settings.scrapsBamFilename = true <;>
    simp [h, ExternalResource.addExternalResource, ExternalResource.addFileIndex,
      ExternalResource.new, ExternalResource.MetaType]

theorem mainBam_FileIndices (w : World) (settings : Settings) :
    (mainBam w settings).FileIndices =
      [⟨"PacBio.Index.PacBioIndex", (mainBam w settings).ResourceId ++ ".pbi"⟩] := by
  rw [mainBam_ResourceId]
  unfold mainBam
  by_cases h : empty settings.scrapsBamFilename = true <;>
    simp [h, ExternalResource.addExternalResource, ExternalResource.addFileIndex,
      ExternalResource.new, ExternalResource.FileIndices]

theorem isLegacy_of_MetaType (e : ExternalResource)
    (h : e.MetaType = "PacBio.SubreadFile.SubreadBamFile") : isLegacy e = false := by
  unfold isLegacy
  rw [h]
  decide

/-- C4, as stated, fails: `mixedDataSet` already lists a resource of metatype
`PacBio.SubreadFile.SubreadBamFile`; the rewrite succeeds and the descriptor it saves has two
top-level resources of that metatype. -/
theorem primary_not_unique :
    (WriteDatasetXmlOutput mixedWorld exampleSettings []).ret = true ∧
      ∃ saved, Event.save "movieA.dataset.xml" saved ∈
          (WriteDatasetXmlOutput mixedWorld exampleSettings []).trace ∧
        (saved.externalResources.filter
          (fun e => decide (e.MetaType = "PacBio.SubreadFile.SubreadBamFile"))).length = 2 :=
  ⟨by decide, rewriteDataSet mixedWorld exampleSettings mixedDataSet, by decide, by decide⟩

/-- C4, amended: when the rewrite of a loaded descriptor succeeds, the descriptor it saved has
exactly one more top-level resource of metatype `PacBio.SubreadFile.SubreadBamFile` than the
input had (exactly one when the input had none); the new one is the last top-level resource and
carries exactly one file index, of metatype `PacBio.Index.PacBioIndex`, whose path is the
resource's stored path followed by `.pbi`. -/
theorem primary_resource_added (w : World) (settings : Settings) (errors : List String)
    (input : DataSet)
    (hload : w.load settings.datasetXmlFilename = some input)
    (hret : (WriteDatasetXmlOutput w settings errors).ret = true) :
    ∃ filename saved kept primary,
      (WriteDatasetXmlOutput w settings errors).trace =
        [Event.load settings.datasetXmlFilename, Event.save filename saved] ∧
      saved.externalResources = kept ++ [primary] ∧
      primary.MetaType = "PacBio.SubreadFile.SubreadBamFile" ∧
      primary.FileIndices = [⟨"PacBio.Index.PacBioIndex", primary.ResourceId ++ ".pbi"⟩] ∧
      (saved.externalResources.filter
          (fun e => decide (e.MetaType = "PacBio.SubreadFile.SubreadBamFile"))).length =
        (input.externalResources.filter
          (fun e => decide (e.MetaType = "PacBio.SubreadFile.SubreadBamFile"))).length + 1 ∧
      ((∀ e ∈ input.externalResources, e.MetaType ≠ "PacBio.SubreadFile.SubreadBamFile") →
        saved.externalResources.filter
          (fun e => decide (e.MetaType = "PacBio.SubreadFile.SubreadBamFile")) = [primary]) := by
  obtain ⟨input2, hload2, htrace⟩ := ret_true hret
  rw [hload] at hload2
  cases hload2
  refine ⟨xmlFn settings, rewriteDataSet w settings input,
    input.externalResources.filter (fun e => !isLegacy e), mainBam w settings, htrace, ?_,
    mainBam_MetaType w settings, mainBam_FileIndices w settings, ?_, ?_⟩
  · rw [rewriteDataSet_externalResources, removeLegacy_scanLegacy]
  · rw [rewriteDataSet_externalResources, removeLegacy_scanLegacy, List.filter_append,
      List.filter_filter, List.length_append]
    have h1 : List.filter (fun e => decide (e.MetaType = "PacBio.SubreadFile.SubreadBamFile"))
        [mainBam w settings] = [mainBam w settings] := by
      simp [mainBam_MetaType]
    have h2 : List.filter (fun a => decide (a.MetaType = "PacBio.SubreadFile.SubreadBamFile")
          && !isLegacy a) input.externalResources =
        List.filter (fun e => decide (e.MetaType = "PacBio.SubreadFile.SubreadBamFile"))
          input.externalResources := by
      apply List.filter_congr
      intro x _
      by_cases hx : x.MetaType = "PacBio.SubreadFile.SubreadBamFile"
      · simp [hx, isLegacy_of_MetaType x hx]
      · simp [hx]
    rw [h1, h2]
    rfl
  · intro hnone
    rw [rewriteDataSet_externalResources, removeLegacy_scanLegacy, List.filter_append,
      List.filter_filter]
    have h1 : List.filter (fun e => decide (e.MetaType = "PacBio.SubreadFile.SubreadBamFile"))
        [mainBam w settings] = [mainBam w settings] := by
      simp [mainBam_MetaType]
    have h2 : List.filter (fun a => decide (a.MetaType = "PacBio.SubreadFile.SubreadBamFile")
          && !isLegacy a) input.externalResources = [] := by
      rw [List.filter_eq_nil_iff]
      intro x hx
      simp [hnone x hx]
    rw [h1, h2]
    rfl

/-- The rewrite of `exampleDataSet`, which lists no read container, succeeds and adds
one. -/
theorem primary_resource_added_witness :
    exampleWorld.load exampleSettings.datasetXmlFilename = some exampleDataSet ∧
      (WriteDatasetXmlOutput exampleWorld exampleSettings []).ret = true ∧
      ∃ filename saved kept primary,
        (WriteDatasetXmlOutput exampleWorld exampleSettings []).trace =
          [Event.load exampleSettings.datasetXmlFilename, Event.save filename saved] ∧
        saved.externalResources = kept ++ [primary] ∧
        primary.MetaType = "PacBio.SubreadFile.SubreadBamFile" ∧
        primary.FileIndices = [⟨"PacBio.Index.PacBioIndex", primary.ResourceId ++ ".pbi"⟩] ∧
        (saved.externalResources.filter
            (fun e => decide (e.MetaType = "PacBio.SubreadFile.SubreadBamFile"))).length =
          (exampleDataSet.externalResources.filter
            (fun e => decide (e.MetaType = "PacBio.SubreadFile.SubreadBamFile"))).length + 1 ∧
        ((∀ e ∈ exampleDataSet.externalResources,
            e.MetaType ≠ "PacBio.SubreadFile.SubreadBamFile") →
          saved.externalResources.filter
            (fun e => decide (e.MetaType = "PacBio.SubreadFile.SubreadBamFile")) = [primary]) :=
  ⟨by decide, by decide,
    primary_resource_added exampleWorld exampleSettings [] exampleDataSet (by decide) (by decide)⟩

theorem mainBam_ExternalResources (w : World) (settings : Settings) :
    (mainBam w settings).ExternalResources =
      if empty settings.scrapsBamFilename then [] else [scrapsBam w settings] := by
  unfold mainBam
  by_cases h : empty settings.scrapsBamFilename = true <;>
    simp [h, ExternalResource.addExternalResource, ExternalResource.addFileIndex,
      ExternalResource.new, ExternalResource.ExternalResources]

/-- C5: when the rewrite of a loaded descriptor reaches `Save`, the top-level resources being
saved are resources of the input, in their order, followed by the new primary resource (so no
scraps resource is added at top level). With `scrapsBamFilename` empty the primary resource has
nothing nested; otherwise it has exactly one nested resource, of metatype
`PacBio.SubreadFile.ScrapsBamFile`, with nothing nested beneath it and exactly one file index,
of metatype `PacBio.Index.PacBioIndex`, whose path is the scraps resource's stored path
followed by `.pbi`. -/
theorem scraps_attachment (w : World) (settings : Settings) (errors : List String)
    (filename : String) (saved input : DataSet)
    (hload : w.load settings.datasetXmlFilename = some input)
    (hsave : Event.save filename saved ∈ (WriteDatasetXmlOutput w settings errors).trace) :
    ∃ kept primary,
      saved.externalResources = kept ++ [primary] ∧
      List.Sublist kept input.externalResources ∧
      primary.MetaType = "PacBio.SubreadFile.SubreadBamFile" ∧
      (settings.scrapsBamFilename = "" → primary.ExternalResources = []) ∧
      (settings.scrapsBamFilename ≠ "" →
        ∃ scraps, primary.ExternalResources = [scraps] ∧
          scraps.MetaType = "PacBio.SubreadFile.ScrapsBamFile" ∧
          scraps.FileIndices = [⟨"PacBio.Index.PacBioIndex", scraps.ResourceId ++ ".pbi"⟩] ∧
          scraps.ExternalResources = []) := by
  obtain ⟨input2, hload2, -, -, rfl⟩ := save_mem_trace hsave
  rw [hload] at hload2
  cases hload2
  refine ⟨input.externalResources.filter (fun e => !isLegacy e), mainBam w settings, ?_,
    List.filter_sublist _, mainBam_MetaType w settings, ?_, ?_⟩
  · rw [rewriteDataSet_externalResources, removeLegacy_scanLegacy]
  · intro h
    rw [mainBam_ExternalResources, (empty_iff _).2 h]
    rfl
  · intro h
    have he : empty settings.scrapsBamFilename = false := by
      rw [← Bool.not_eq_true, empty_iff]; exact h
    rw [mainBam_ExternalResources, he]
    exact ⟨scrapsBam w settings, rfl, rfl, rfl, rfl⟩

/-- The rewrite of `exampleDataSet` under settings that name `scraps.bam`. -/
theorem scraps_attachment_witness :
    exampleWorld.load scrapsSettings.datasetXmlFilename = some exampleDataSet ∧
      Event.save "movieA.dataset.xml" (rewriteDataSet exampleWorld scrapsSettings exampleDataSet) ∈
        (WriteDatasetXmlOutput exampleWorld scrapsSettings []).trace ∧
      ∃ kept primary,
        (rewriteDataSet exampleWorld scrapsSettings exampleDataSet).externalResources
          = kept ++ [primary] ∧
        List.Sublist kept exampleDataSet.externalResources ∧
        primary.MetaType = "PacBio.SubreadFile.SubreadBamFile" ∧
        (scrapsSettings.scrapsBamFilename = "" → primary.ExternalResources = []) ∧
        (scrapsSettings.scrapsBamFilename ≠ "" →
          ∃ scraps, primary.ExternalResources = [scraps] ∧
            scraps.MetaType = "PacBio.SubreadFile.ScrapsBamFile" ∧
            scraps.FileIndices = [⟨"PacBio.Index.PacBioIndex", scraps.ResourceId ++ ".pbi"⟩] ∧
            scraps.ExternalResources = []) :=
  ⟨by decide, by decide,
    scraps_attachment exampleWorld scrapsSettings [] "movieA.dataset.xml"
      (rewriteDataSet exampleWorld scrapsSettings exampleDataSet) exampleDataSet
      (by decide) (by decide)⟩

/-! ## The run -/

theorem Run_of_select {w : World} {settings : Settings} {k : ConverterKind}
    (hk : selectConverter settings.mode = some k) :
    Run w settings = runConversion w settings k := by
  unfold Run
  rw [hk]

theorem select_none_iff (m : Mode) :
    selectConverter m = none ↔
      m ≠ Mode.HQRegionMode ∧ m ≠ Mode.PolymeraseMode ∧ m ≠ Mode.SubreadMode ∧
        m ≠ Mode.CCSMode := by
  cases m <;> simp [selectConverter]

theorem runConversion_converter_failed {w : World} {settings : Settings} {k : ConverterKind}
    (hr : (w.converter k settings).Run = false) :
    runConversion w settings k =
      ⟨EXIT_FAILURE, (w.converter k settings).Errors.map (fun e => "ERROR: " ++ e),
        [Event.construct k, Event.converterRun k]⟩ := by
  simp [runConversion, hr]

theorem runConversion_no_descriptor {w : World} {settings : Settings} {k : ConverterKind}
    (hr : (w.converter k settings).Run = true) (he : empty settings.datasetXmlFilename = true) :
    runConversion w settings k =
      ⟨EXIT_SUCCESS, [], [Event.construct k, Event.converterRun k]⟩ := by
  simp [runConversion, hr, he]

theorem runConversion_rewrite_ok {w : World} {settings : Settings} {k : ConverterKind}
    (hr : (w.converter k settings).Run = true) (he : empty settings.datasetXmlFilename = false)
    (hw : (WriteDatasetXmlOutput w settings []).ret = true) :
    runConversion w settings k =
      ⟨EXIT_SUCCESS, [],
        Event.construct k :: Event.converterRun k :: Event.writeDatasetXmlOutput ::
          (WriteDatasetXmlOutput w settings []).trace⟩ := by
  simp [runConversion, hr, he, hw]

theorem runConversion_rewrite_failed {w : World} {settings : Settings} {k : ConverterKind}
    (hr : (w.converter k settings).Run = true) (he : empty settings.datasetXmlFilename = false)
    (hw : (WriteDatasetXmlOutput w settings []).ret = false) :
    runConversion w settings k =
      ⟨EXIT_FAILURE,
        (w.converter k settings).Errors.map (fun e => "ERROR: " ++ e) ++
          (WriteDatasetXmlOutput w settings []).errors.map (fun e => "ERROR: " ++ e),
        Event.construct k :: Event.converterRun k :: Event.writeDatasetXmlOutput ::
          (WriteDatasetXmlOutput w settings []).trace⟩ := by
  simp [runConversion, hr, he, hw]

theorem empty_eq_false_iff (s : String) : empty s = false ↔ s ≠ "" := by
  rw [← Bool.not_eq_true, empty_iff]

/-- C6: for a recognized mode, `Run` returns `EXIT_SUCCESS` exactly when the selected
converter's `Run()` returned true and either `datasetXmlFilename` is empty or
`WriteDatasetXmlOutput` returned true; in every other case it returns `EXIT_FAILURE`. -/
theorem Run_exit_status (w : World) (settings : Settings) (k : ConverterKind)
    (hk : selectConverter settings.mode = some k) :
    ((Run w settings).exit = EXIT_SUCCESS ↔
      (w.converter k settings).Run = true ∧
        (settings.datasetXmlFilename = "" ∨
          (WriteDatasetXmlOutput w settings []).ret = true)) ∧
    (¬ ((w.converter k settings).Run = true ∧
        (settings.datasetXmlFilename = "" ∨
          (WriteDatasetXmlOutput w settings []).ret = true)) →
      (Run w settings).exit = EXIT_FAILURE) := by
  rw [Run_of_select hk]
  cases hr : (w.converter k settings).Run with
  | false =>
    rw [runConversion_converter_failed hr]
    simp [EXIT_SUCCESS, EXIT_FAILURE]
  | true =>
    cases he : empty settings.datasetXmlFilename with
    | true =>
      rw [runConversion_no_descriptor hr he]
      simp [(empty_iff _).1 he]
    | false =>
      have he2 := (empty_eq_false_iff _).1 he
      cases hw : (WriteDatasetXmlOutput w settings []).ret with
      | true =>
        rw [runConversion_rewrite_ok hr he hw]
        simp
      | false =>
        rw [runConversion_rewrite_failed hr he hw]
        simp [he2, EXIT_SUCCESS, EXIT_FAILURE]

/-- A run whose converter succeeds and whose descriptor cannot be saved. -/
theorem Run_exit_status_witness :
    selectConverter exampleSettings.mode = some ConverterKind.SubreadConverter ∧
      (((Run unwritableWorld exampleSettings).exit = EXIT_SUCCESS ↔
        (unwritableWorld.converter ConverterKind.SubreadConverter exampleSettings).Run = true ∧
          (exampleSettings.datasetXmlFilename = "" ∨
            (WriteDatasetXmlOutput unwritableWorld exampleSettings []).ret = true)) ∧
      (¬ ((unwritableWorld.converter ConverterKind.SubreadConverter exampleSettings).Run = true ∧
          (exampleSettings.datasetXmlFilename = "" ∨
            (WriteDatasetXmlOutput unwritableWorld exampleSettings []).ret = true)) →
        (Run unwritableWorld exampleSettings).exit = EXIT_FAILURE)) :=
  ⟨by decide,
    Run_exit_status unwritableWorld exampleSettings ConverterKind.SubreadConverter (by decide)⟩

theorem rewrite_trace_no_call (w : World) (settings : Settings) (errors : List String) :
    Event.writeDatasetXmlOutput ∉ (WriteDatasetXmlOutput w settings errors).trace := by
  unfold WriteDatasetXmlOutput
  cases hl : w.load settings.datasetXmlFilename with
  | none => simp [catchException]
  | some input =>
    cases hm : w.mutationThrows with
    | true => simp [catchException]
    | false =>
      by_cases hs : w.saveThrows (rewriteDataSet w settings input) (xmlFn settings) = true <;>
        simp [hs, catchException]

/-- C7: a run calls `WriteDatasetXmlOutput` at most once, and it calls it if and only if the
mode is recognized, the selected converter's `Run()` returned true and `datasetXmlFilename` is
not empty; when the converter's `Run()` returns false the run neither calls it nor saves a
descriptor. -/
theorem rewriter_invocation (w : World) (settings : Settings) :
    (Run w settings).trace.count Event.writeDatasetXmlOutput ≤ 1 ∧
    (Event.writeDatasetXmlOutput ∈ (Run w settings).trace ↔
      ∃ k, selectConverter settings.mode = some k ∧ (w.converter k settings).Run = true ∧
        settings.datasetXmlFilename ≠ "") ∧
    (∀ k, selectConverter settings.mode = some k → (w.converter k settings).Run = false →
      Event.writeDatasetXmlOutput ∉ (Run w settings).trace ∧
        ∀ filename saved, Event.save filename saved ∉ (Run w settings).trace) := by
  cases hk : selectConverter settings.mode with
  | none => simp [Run, hk]
  | some k =>
    rw [Run_of_select hk]
    have hno := rewrite_trace_no_call w settings []
    have hcount : (WriteDatasetXmlOutput w settings []).trace.count
        Event.writeDatasetXmlOutput = 0 := List.count_eq_zero.2 hno
    cases hr : (w.converter k settings).Run with
    | false =>
      rw [runConversion_converter_failed hr]
      simp [hr]
    | true =>
      cases he : empty settings.datasetXmlFilename with
      | true =>
        rw [runConversion_no_descriptor hr he]
        simp [hr, (empty_iff _).1 he]
      | false =>
        have he2 := (empty_eq_false_iff _).1 he
        cases hw : (WriteDatasetXmlOutput w settings []).ret with
        | true =>
          rw [runConversion_rewrite_ok hr he hw]
          simp [hr, he2, hcount, List.count_cons]
        | false =>
          rw [runConversion_rewrite_failed hr he hw]
          simp [hr, he2, hcount, List.count_cons]

/-- C8: for settings whose mode is none of the four recognized ones, `Run` makes no call at
all (it constructs no converter, calls no converter's `Run()` and does not call
`WriteDatasetXmlOutput`), returns `EXIT_FAILURE`, and writes the single line
`ERROR: unknown mode selected`. -/
theorem unrecognized_mode (w : World) (settings : Settings)
    (hmode : settings.mode ≠ Mode.HQRegionMode ∧ settings.mode ≠ Mode.PolymeraseMode ∧
      settings.mode ≠ Mode.SubreadMode ∧ settings.mode ≠ Mode.CCSMode) :
    (Run w settings).trace = [] ∧
      (Run w settings).exit = EXIT_FAILURE ∧
      (Run w settings).cerr = ["ERROR: " ++ "unknown mode selected"] := by
  have hk := (select_none_iff settings.mode).2 hmode
  unfold Run
  rw [hk]
  exact ⟨rfl, rfl, rfl⟩

/-- A run whose mode is the integer 7. -/
theorem unrecognized_mode_witness :
    (Run exampleWorld { exampleSettings with mode := Mode.unrecognized 7 }).trace = [] ∧
      (Run exampleWorld { exampleSettings with mode := Mode.unrecognized 7 }).exit
        = EXIT_FAILURE ∧
      (Run exampleWorld { exampleSettings with mode := Mode.unrecognized 7 }).cerr
        = ["ERROR: " ++ "unknown mode selected"] :=
  unrecognized_mode exampleWorld { exampleSettings with mode := Mode.unrecognized 7 }
    (by decide)

theorem rewrite_failed_of_fault (w : World) (settings : Settings) (errors : List String)
    (hfail : w.load settings.datasetXmlFilename = none ∨ w.mutationThrows = true ∨
      ∃ input, w.load settings.datasetXmlFilename = some input ∧
        w.saveThrows (rewriteDataSet w settings input) (xmlFn settings) = true) :
    (WriteDatasetXmlOutput w settings errors).ret = false ∧
      (WriteDatasetXmlOutput w settings errors).errors =
        errors ++ ["could not create output XML"] := by
  unfold WriteDatasetXmlOutput
  rcases hfail with hl | hm | ⟨input, hl, hs⟩
  · simp [hl, catchException]
  · cases hl : w.load settings.datasetXmlFilename <;> simp [hm, catchException]
  · cases hm : w.mutationThrows <;> simp [hl, hs, catchException]

/-- C9: in a run with a recognized mode whose converter's `Run()` returns true with no error
message and whose `datasetXmlFilename` is not empty, if loading the descriptor throws, or a
mutator throws, or saving the rewritten descriptor throws, then `Run` returns `EXIT_FAILURE`,
the rewriter's error list is the single message `could not create output XML`, and the single
line `ERROR: could not create output XML` is written. -/
theorem rewrite_failure_collapsed (w : World) (settings : Settings) (k : ConverterKind)
    (hk : selectConverter settings.mode = some k)
    (hrun : (w.converter k settings).Run = true)
    (herrs : (w.converter k settings).Errors = [])
    (hxml : settings.datasetXmlFilename ≠ "")
    (hfail : w.load settings.datasetXmlFilename = none ∨ w.mutationThrows = true ∨
      ∃ input, w.load settings.datasetXmlFilename = some input ∧
        w.saveThrows (rewriteDataSet w settings input) (xmlFn settings) = true) :
    (Run w settings).exit = EXIT_FAILURE ∧
      (WriteDatasetXmlOutput w settings []).errors = ["could not create output XML"] ∧
      (Run w settings).cerr = ["ERROR: could not create output XML"] := by
  obtain ⟨hret, herr⟩ := rewrite_failed_of_fault w settings [] hfail
  rw [Run_of_select hk,
    runConversion_rewrite_failed hrun ((empty_eq_false_iff _).2 hxml) hret, herr, herrs]
  exact ⟨rfl, rfl, rfl⟩

/-- A run whose converter succeeds without messages and whose descriptor cannot be
saved. -/
theorem rewrite_failure_collapsed_witness :
    selectConverter exampleSettings.mode = some ConverterKind.SubreadConverter ∧
      (unwritableWorld.converter ConverterKind.SubreadConverter exampleSettings).Run = true ∧
      (unwritableWorld.converter ConverterKind.SubreadConverter exampleSettings).Errors = [] ∧
      exampleSettings.datasetXmlFilename ≠ "" ∧
      unwritableWorld.saveThrows (rewriteDataSet unwritableWorld exampleSettings exampleDataSet)
        (xmlFn exampleSettings) = true ∧
      (Run unwritableWorld exampleSettings).exit = EXIT_FAILURE ∧
      (WriteDatasetXmlOutput unwritableWorld exampleSettings []).errors
        = ["could not create output XML"] ∧
      (Run unwritableWorld exampleSettings).cerr = ["ERROR: could not create output XML"] :=
  ⟨by decide, by decide, by decide, by decide, by decide,
    rewrite_failure_collapsed unwritableWorld exampleSettings ConverterKind.SubreadConverter
      (by decide) (by decide) (by decide) (by decide)
      (Or.inr (Or.inr ⟨exampleDataSet, by decide, by decide⟩))⟩

/-- C10: in a run with a recognized mode that returns `EXIT_FAILURE`, the lines written are
`"ERROR: " ++ e` for each message `e` of the converter's `Errors()`, in order, followed by
`"ERROR: " ++ e` for each message `e` the rewriter reported, in order (the rewriter reports
none when it was not called); a run that returns `EXIT_SUCCESS` writes no line. -/
theorem error_report (w : World) (settings : Settings) (k : ConverterKind)
    (hk : selectConverter settings.mode = some k) :
    ((Run w settings).exit = EXIT_FAILURE →
      (Run w settings).cerr =
        (w.converter k settings).Errors.map (fun e => "ERROR: " ++ e) ++
          (if (w.converter k settings).Run = true ∧ settings.datasetXmlFilename ≠ "" then
            (WriteDatasetXmlOutput w settings []).errors
          else []).map (fun e => "ERROR: " ++ e)) ∧
    ((Run w settings).exit = EXIT_SUCCESS → (Run w settings).cerr = []) := by
  rw [Run_of_select hk]
  cases hr : (w.converter k settings).Run with
  | false =>
    rw [runConversion_converter_failed hr]
    simp [EXIT_SUCCESS, EXIT_FAILURE]
  | true =>
    cases he : empty settings.datasetXmlFilename with
    | true =>
      rw [runConversion_no_descriptor hr he]
      simp [EXIT_SUCCESS, EXIT_FAILURE]
    | false =>
      have he2 := (empty_eq_false_iff _).1 he
      cases hw : (WriteDatasetXmlOutput w settings []).ret with
      | true =>
        rw [runConversion_rewrite_ok hr he hw]
        simp [EXIT_SUCCESS, EXIT_FAILURE]
      | false =>
        rw [runConversion_rewrite_failed hr he hw]
        simp [he2, EXIT_SUCCESS, EXIT_FAILURE]

/-- A run whose converter fails with two messages: both are printed, in order. -/
theorem error_report_witness :
    selectConverter exampleSettings.mode = some ConverterKind.SubreadConverter ∧
      (Run failingWorld exampleSettings).exit = EXIT_FAILURE ∧
      (Run failingWorld exampleSettings).cerr = ["ERROR: no input", "ERROR: bad movie"] := by
  refine ⟨by decide, by decide, ?_⟩
  rw [(error_report failingWorld exampleSettings ConverterKind.SubreadConverter
    (by decide)).1 (by decide)]
  decide

/-! ## The second half of the claims -/

theorem xmlFn_eq (settings : Settings) :
    (settings.outputXmlFilename ≠ "" → xmlFn settings = settings.outputXmlFilename) ∧
      (settings.outputXmlFilename = "" →
        xmlFn settings = settings.outputBamPrefix ++ ".dataset.xml") := by
  constructor
  · intro h
    simp [xmlFn, (empty_eq_false_iff _).2 h]
  · intro h
    simp [xmlFn, (empty_iff _).2 h]

theorem rewrite_trace_cases (w : World) (settings : Settings) (errors : List String) :
    (WriteDatasetXmlOutput w settings errors).ret = false ∧
        (WriteDatasetXmlOutput w settings errors).trace =
          [Event.load settings.datasetXmlFilename] ∨
      ∃ input, w.load settings.datasetXmlFilename = some input ∧
        (WriteDatasetXmlOutput w settings errors).trace =
          [Event.load settings.datasetXmlFilename,
            Event.save (xmlFn settings) (rewriteDataSet w settings input)] := by
  unfold WriteDatasetXmlOutput
  cases hl : w.load settings.datasetXmlFilename with
  | none => simp [catchException]
  | some input =>
    cases hm : w.mutationThrows with
    | true => simp [catchException]
    | false =>
      right
      refine ⟨input, rfl, ?_⟩
      by_cases hs : w.saveThrows (rewriteDataSet w settings input) (xmlFn settings) = true <;>
        simp [hs, catchException]

/-- C11: the rewriter calls `Save` at most once, and only with the file name
`outputXmlFilename` when that is not empty and `outputBamPrefix ++ ".dataset.xml"` when it is
(its calls are the load alone, or the load followed by one `Save` to that name); when it
returns true it has called `Save` exactly once, with that name. -/
theorem output_descriptor_path (w : World) (settings : Settings) (errors : List String) :
    ∃ filename,
      (settings.outputXmlFilename ≠ "" → filename = settings.outputXmlFilename) ∧
      (settings.outputXmlFilename = "" →
        filename = settings.outputBamPrefix ++ ".dataset.xml") ∧
      ((WriteDatasetXmlOutput w settings errors).trace =
          [Event.load settings.datasetXmlFilename] ∨
        ∃ saved, (WriteDatasetXmlOutput w settings errors).trace =
          [Event.load settings.datasetXmlFilename, Event.save filename saved]) ∧
      ((WriteDatasetXmlOutput w settings errors).ret = true →
        ∃ saved, (WriteDatasetXmlOutput w settings errors).trace =
          [Event.load settings.datasetXmlFilename, Event.save filename saved]) := by
  refine ⟨xmlFn settings, (xmlFn_eq settings).1, (xmlFn_eq settings).2, ?_, ?_⟩
  · rcases rewrite_trace_cases w settings errors with h | ⟨input, -, h⟩
    · exact Or.inl h.2
    · exact Or.inr ⟨_, h⟩
  · intro hret
    obtain ⟨input, -, h⟩ := ret_true hret
    exact ⟨_, h⟩

/-- C12: for each of the four recognized modes, the calls of `Run` begin with the
construction of the converter of the corresponding class followed by one call of its `Run()`,
and no other converter is constructed or run afterwards. -/
theorem strategy_selection (w : World) (settings : Settings) (k : ConverterKind)
    (hmode : (settings.mode, k) ∈
      [(Mode.HQRegionMode, ConverterKind.HqRegionConverter),
       (Mode.PolymeraseMode, ConverterKind.PolymeraseReadConverter),
       (Mode.SubreadMode, ConverterKind.SubreadConverter),
       (Mode.CCSMode, ConverterKind.CcsConverter)]) :
    ∃ rest, (Run w settings).trace = Event.construct k :: Event.converterRun k :: rest ∧
      ∀ k2, Event.construct k2 ∉ rest ∧ Event.converterRun k2 ∉ rest := by
  have hk : selectConverter settings.mode = some k := by
    simp only [List.mem_cons, Prod.mk.injEq, List.mem_singleton, List.not_mem_nil,
      or_false] at hmode
    rcases hmode with ⟨hm, rfl⟩ | ⟨hm, rfl⟩ | ⟨hm, rfl⟩ | ⟨hm, rfl⟩ <;> rw [hm] <;> rfl
  rw [Run_of_select hk]
  have hrest : ∀ k2, Event.construct k2 ∉ (WriteDatasetXmlOutput w settings []).trace ∧
      Event.converterRun k2 ∉ (WriteDatasetXmlOutput w settings []).trace := by
    intro k2
    rcases rewrite_trace_cases w settings [] with h | ⟨input, -, h⟩
    · rw [h.2]; simp
    · rw [h]; simp
  cases hr : (w.converter k settings).Run with
  | false =>
    rw [runConversion_converter_failed hr]
    exact ⟨[], rfl, by simp⟩
  | true =>
    cases he : empty settings.datasetXmlFilename with
    | true =>
      rw [runConversion_no_descriptor hr he]
      exact ⟨[], rfl, by simp⟩
    | false =>
      cases hw : (WriteDatasetXmlOutput w settings []).ret with
      | true =>
        rw [runConversion_rewrite_ok hr he hw]
        exact ⟨_, rfl, fun k2 => by simp [hrest k2]⟩
      | false =>
        rw [runConversion_rewrite_failed hr he hw]
        exact ⟨_, rfl, fun k2 => by simp [hrest k2]⟩

/-- A run in subread mode constructs and runs the subread converter, then rewrites the
descriptor. -/
theorem strategy_selection_witness :
    (Run exampleWorld exampleSettings).trace =
        [Event.construct ConverterKind.SubreadConverter,
         Event.converterRun ConverterKind.SubreadConverter,
         Event.writeDatasetXmlOutput,
         Event.load "in.xml",
         Event.save "movieA.dataset.xml"
           (rewriteDataSet exampleWorld exampleSettings exampleDataSet)] ∧
      ∃ rest, (Run exampleWorld exampleSettings).trace =
          Event.construct ConverterKind.SubreadConverter ::
            Event.converterRun ConverterKind.SubreadConverter :: rest ∧
        ∀ k2, Event.construct k2 ∉ rest ∧ Event.converterRun k2 ∉ rest :=
  ⟨by decide,
    strategy_selection exampleWorld exampleSettings ConverterKind.SubreadConverter
      (by decide)⟩

theorem starts_with_iff (s p : String) :
    starts_with s p = true ↔ ∃ rest : String, s = p ++ rest := by
  unfold starts_with
  rw [List.isPrefixOf_iff_prefix]
  constructor
  · rintro ⟨t, ht⟩
    exact ⟨⟨t⟩, String.ext (by rw [String.data_append, ht])⟩
  · rintro ⟨rest, h⟩
    exact ⟨rest.data, by rw [h, String.data_append]⟩

theorem mainBamFilepath_absolute (w : World) (settings : Settings)
    (habs : (∃ rest : String, CurrentWorkingDir w = "/" ++ rest) ∨
      ∃ rest : String, settings.outputBamFilename = "/" ++ rest) :
    ∃ rest : String, mainBamFilepath w settings = "file:///" ++ rest := by
  have hlit : ("file://" : String) ++ "/" = "file:///" := by decide
  by_cases hout : ∃ rest : String, settings.outputBamFilename = "/" ++ rest
  · obtain ⟨rest, hrest⟩ := hout
    refine ⟨rest, ?_⟩
    simp only [mainBamFilepath, (starts_with_slash_iff _).2 ⟨rest, hrest⟩, if_true, scheme]
    rw [hrest, ← String.append_assoc, hlit]
  · rcases habs with ⟨rest, hcwd⟩ | h
    · have hs : starts_with settings.outputBamFilename "/" = false := by
        rw [← Bool.not_eq_true, starts_with_slash_iff]; exact hout
      have hne : empty (CurrentWorkingDir w) = false := by
        rw [empty_eq_false_iff, hcwd]
        intro h
        have h2 := congrArg String.data h
        rw [String.data_append] at h2
        exact absurd h2 (by simp)
      refine ⟨rest ++ "/" ++ settings.outputBamFilename, ?_⟩
      simp only [mainBamFilepath, hs, hne, scheme, Bool.false_eq_true, if_false, Bool.not_false,
        if_true]
      rw [hcwd, ← hlit]
      simp only [String.append_assoc]
    · exact absurd h hout

/-- C13, as stated, fails: when `getcwd` fails the working directory is the empty string, and
the relative name `run1.bam` is stored on the primary resource as `file://run1.bam`, which
does not begin with `file:///`. -/
theorem relative_path_without_cwd :
    CurrentWorkingDir noCwdWorld = "" ∧
      ∃ saved primary,
        Event.save "movieA.dataset.xml" saved ∈
          (WriteDatasetXmlOutput noCwdWorld exampleSettings []).trace ∧
        saved.externalResources.getLast? = some primary ∧
        primary.ResourceId = "file://run1.bam" ∧
        ¬ ∃ rest : String, primary.ResourceId = "file:///" ++ rest := by
  refine ⟨by decide, rewriteDataSet noCwdWorld exampleSettings exampleDataSet,
    mainBam noCwdWorld exampleSettings, by decide, by decide, by decide, ?_⟩
  rw [← starts_with_iff]
  decide

/-- C13, amended: when the working directory begins with `/`, or `outputBamFilename` itself
begins with `/`, the path stored on the primary resource of the descriptor being saved begins
with `file:///`. -/
theorem primary_path_absolute (w : World) (settings : Settings) (errors : List String)
    (filename : String) (saved : DataSet)
    (habs : (∃ rest : String, CurrentWorkingDir w = "/" ++ rest) ∨
      ∃ rest : String, settings.outputBamFilename = "/" ++ rest)
    (hsave : Event.save filename saved ∈ (WriteDatasetXmlOutput w settings errors).trace) :
    ∃ primary, saved.externalResources.getLast? = some primary ∧
      ∃ rest : String, primary.ResourceId = "file:///" ++ rest := by
  obtain ⟨input, -, -, -, rfl⟩ := save_mem_trace hsave
  refine ⟨mainBam w settings, ?_, ?_⟩
  · rw [rewriteDataSet_externalResources]; simp
  · rw [mainBam_ResourceId]
    exact mainBamFilepath_absolute w settings habs

/-- Under `/data/jobs/42` the relative name `run1.bam` is stored with an absolute path. -/
theorem primary_path_absolute_witness :
    (∃ rest : String, CurrentWorkingDir exampleWorld = "/" ++ rest) ∧
      Event.save "movieA.dataset.xml" (rewriteDataSet exampleWorld exampleSettings exampleDataSet) ∈
        (WriteDatasetXmlOutput exampleWorld exampleSettings []).trace ∧
      ∃ primary,
        (rewriteDataSet exampleWorld exampleSettings exampleDataSet).externalResources.getLast?
          = some primary ∧
        ∃ rest : String, primary.ResourceId = "file:///" ++ rest :=
  ⟨⟨"data/jobs/42", by decide⟩, by decide,
    primary_path_absolute exampleWorld exampleSettings [] "movieA.dataset.xml"
      (rewriteDataSet exampleWorld exampleSettings exampleDataSet)
      (Or.inl ⟨"data/jobs/42", by decide⟩) (by decide)⟩

/-- C14: when the rewrite of a loaded descriptor succeeds, whatever type and metatype the
input declared, the descriptor it saved has type `SUBREAD` and metatype
`PacBio.DataSet.SubreadSet`, and for the one clock reading `t` of the call its `createdAt` is
`ToIso8601 t` and its `timeStampedName` is `"pacbio_dataset_subreadset-" ++ ToDataSetFormat t`. -/
theorem retagging (w : World) (settings : Settings) (errors : List String) (input : DataSet)
    (hload : w.load settings.datasetXmlFilename = some input)
    (hret : (WriteDatasetXmlOutput w settings errors).ret = true) :
    ∃ filename saved t,
      (WriteDatasetXmlOutput w settings errors).trace =
        [Event.load settings.datasetXmlFilename, Event.save filename saved] ∧
      t = w.time ∧
      saved.type = TypeEnum.SUBREAD ∧
      saved.metaType = "PacBio.DataSet.SubreadSet" ∧
      saved.createdAt = w.ToIso8601 t ∧
      saved.timeStampedName = "pacbio_dataset_subreadset-" ++ w.ToDataSetFormat t := by
  obtain ⟨input2, hload2, htrace⟩ := ret_true hret
  rw [hload] at hload2
  cases hload2
  exact ⟨xmlFn settings, rewriteDataSet w settings input, w.time, htrace, rfl, rfl, rfl, rfl,
    rfl⟩

/-- The rewrite of `nestedDataSet`, which declares another type, succeeds and retags it. -/
theorem retagging_witness :
    nestedWorld.load exampleSettings.datasetXmlFilename = some nestedDataSet ∧
      nestedDataSet.type ≠ TypeEnum.HDF_SUBREAD ∧
      (WriteDatasetXmlOutput nestedWorld exampleSettings []).ret = true ∧
      ∃ filename saved t,
        (WriteDatasetXmlOutput nestedWorld exampleSettings []).trace =
          [Event.load exampleSettings.datasetXmlFilename, Event.save filename saved] ∧
        t = nestedWorld.time ∧
        saved.type = TypeEnum.SUBREAD ∧
        saved.metaType = "PacBio.DataSet.SubreadSet" ∧
        saved.createdAt = nestedWorld.ToIso8601 t ∧
        saved.timeStampedName =
          "pacbio_dataset_subreadset-" ++ nestedWorld.ToDataSetFormat t :=
  ⟨by decide, by decide, by decide,
    retagging nestedWorld exampleSettings [] nestedDataSet (by decide) (by decide)⟩

/-- C16: every top-level resource of the input that the scan does not match is a top-level
resource of the descriptor being saved, unchanged, with all that is nested beneath it; and for
the input `nestedDataSet` the descriptor being saved still holds a resource of metatype
`PacBio.SubreadFile.BaxFile`, which the scan would match, nested beneath a retained
resource. -/
theorem removal_is_top_level_only :
    (∀ (w : World) (settings : Settings) (errors : List String) (filename : String)
        (saved input : DataSet) (e : ExternalResource),
      w.load settings.datasetXmlFilename = some input →
      Event.save filename saved ∈ (WriteDatasetXmlOutput w settings errors).trace →
      e ∈ input.externalResources → isLegacy e = false →
      e ∈ saved.externalResources) ∧
    ∃ saved kept nested,
      nestedWorld.load exampleSettings.datasetXmlFilename = some nestedDataSet ∧
      Event.save "movieA.dataset.xml" saved ∈
        (WriteDatasetXmlOutput nestedWorld exampleSettings []).trace ∧
      kept ∈ nestedDataSet.externalResources ∧
      kept ∈ saved.externalResources ∧
      nested ∈ kept.ExternalResources ∧
      nested.MetaType = "PacBio.SubreadFile.BaxFile" ∧
      isLegacy nested = true := by
  constructor
  · intro w settings errors filename saved input e hload hsave he hkeep
    obtain ⟨input2, hload2, -, -, rfl⟩ := save_mem_trace hsave
    rw [hload] at hload2
    cases hload2
    rw [rewriteDataSet_externalResources, removeLegacy_scanLegacy]
    simp [List.mem_filter, he, hkeep]
  · exact ⟨rewriteDataSet nestedWorld exampleSettings nestedDataSet,
      ExternalResource.mk "PacBio.Collection.Metadata" "file:///data/m1.metadata.xml" []
        [ExternalResource.new "PacBio.SubreadFile.BaxFile" "file:///data/m1.3.bax.h5"],
      ExternalResource.new "PacBio.SubreadFile.BaxFile" "file:///data/m1.3.bax.h5",
      by decide, by decide, by decide, by decide, by decide, by decide, by decide⟩

/-- C17: when the working directory is the empty string and `outputBamFilename` does not
begin with `/`, a rewrite whose load, mutators and `Save` do not throw returns true, leaves the
error list as it was, and the primary resource of the descriptor it saved stores exactly
`"file://" ++ outputBamFilename`. -/
theorem cwd_lookup_failure (w : World) (settings : Settings) (errors : List String)
    (input : DataSet)
    (hcwd : CurrentWorkingDir w = "")
    (hrel : ¬ ∃ rest : String, settings.outputBamFilename = "/" ++ rest)
    (hload : w.load settings.datasetXmlFilename = some input)
    (hmut : w.mutationThrows = false)
    (hsave : w.saveThrows (rewriteDataSet w settings input) (xmlFn settings) = false) :
    (WriteDatasetXmlOutput w settings errors).ret = true ∧
      (WriteDatasetXmlOutput w settings errors).errors = errors ∧
      ∃ saved primary,
        (WriteDatasetXmlOutput w settings errors).trace =
          [Event.load settings.datasetXmlFilename, Event.save (xmlFn settings) saved] ∧
        saved.externalResources.getLast? = some primary ∧
        primary.ResourceId = "file://" ++ settings.outputBamFilename := by
  have hs : starts_with settings.outputBamFilename "/" = false := by
    rw [← Bool.not_eq_true, starts_with_slash_iff]; exact hrel
  have hpath : (mainBam w settings).ResourceId = "file://" ++ settings.outputBamFilename := by
    rw [mainBam_ResourceId]
    have he : empty ("" : String) = true := rfl
    have h0 : ("" : String) ++ settings.outputBamFilename = settings.outputBamFilename :=
      String.ext (by rw [String.data_append]; rfl)
    simp only [mainBamFilepath, hs, hcwd, he, scheme, Bool.false_eq_true, if_false,
      Bool.not_true, h0]
  refine ⟨?_, ?_, rewriteDataSet w settings input, mainBam w settings, ?_, ?_, hpath⟩
  · simp [WriteDatasetXmlOutput, hload, hmut, hsave]
  · simp [WriteDatasetXmlOutput, hload, hmut, hsave]
  · simp [WriteDatasetXmlOutput, hload, hmut, hsave]
  · rw [rewriteDataSet_externalResources]; simp

/-- With `getcwd` failing, `run1.bam` is stored as `file://run1.bam` and the rewrite
succeeds. -/
theorem cwd_lookup_failure_witness :
    CurrentWorkingDir noCwdWorld = "" ∧
      (WriteDatasetXmlOutput noCwdWorld exampleSettings []).ret = true ∧
      (WriteDatasetXmlOutput noCwdWorld exampleSettings []).errors = [] ∧
      ∃ saved primary,
        (WriteDatasetXmlOutput noCwdWorld exampleSettings []).trace =
          [Event.load exampleSettings.datasetXmlFilename,
            Event.save (xmlFn exampleSettings) saved] ∧
        saved.externalResources.getLast? = some primary ∧
        primary.ResourceId = "file://" ++ exampleSettings.outputBamFilename :=
  ⟨by decide,
    cwd_lookup_failure noCwdWorld exampleSettings [] exampleDataSet (by decide)
      (by rw [← starts_with_slash_iff]; decide) (by decide) (by decide) (by decide)⟩

/-- C18: a rewrite that returns true leaves the error list exactly as it was, and the
descriptor it saved is the loaded one with only `type`, `metaType`, `createdAt`,
`timeStampedName` and `externalResources` replaced (everything else, `rest`, is as loaded); a
rewrite that returns false leaves the error list as it was with the single message
`could not create output XML` appended. The settings are an argument that is only read. -/
theorem rewrite_frame (w : World) (settings : Settings) (errors : List String) :
    ((WriteDatasetXmlOutput w settings errors).ret = true →
      (WriteDatasetXmlOutput w settings errors).errors = errors ∧
      ∃ input filename saved,
        w.load settings.datasetXmlFilename = some input ∧
        (WriteDatasetXmlOutput w settings errors).trace =
          [Event.load settings.datasetXmlFilename, Event.save filename saved] ∧
        saved.rest = input.rest ∧
        saved = { input with
          type := saved.type
          metaType := saved.metaType
          createdAt := saved.createdAt
          timeStampedName := saved.timeStampedName
          externalResources := saved.externalResources }) ∧
    ((WriteDatasetXmlOutput w settings errors).ret = false →
      (WriteDatasetXmlOutput w settings errors).errors =
        errors ++ ["could not create output XML"]) := by
  constructor
  · intro hret
    obtain ⟨input, hload, htrace⟩ := ret_true hret
    refine ⟨?_, input, xmlFn settings, rewriteDataSet w settings input, hload, htrace, rfl, rfl⟩
    unfold WriteDatasetXmlOutput at hret ⊢
    rw [hload] at hret ⊢
    cases hm : w.mutationThrows with
    | true => simp [hm, catchException] at hret
    | false =>
      by_cases hs : w.saveThrows (rewriteDataSet w settings input) (xmlFn settings) = true
      · simp [hm, hs, catchException] at hret
      · simp [hs]
  · intro hret
    unfold WriteDatasetXmlOutput at hret ⊢
    cases hl : w.load settings.datasetXmlFilename with
    | none => simp [catchException]
    | some input =>
      rw [hl] at hret
      cases hm : w.mutationThrows with
      | true => simp [catchException]
      | false =>
        by_cases hs : w.saveThrows (rewriteDataSet w settings input) (xmlFn settings) = true
        · simp [hs, catchException]
        · simp [hm, hs] at hret

theorem toLower_cases (c : Char) :
    c.toLower = c ∨
      ∃ n, 65 ≤ n ∧ n ≤ 90 ∧ c = Char.ofNat n ∧ c.toLower = Char.ofNat (n + 32) := by
  by_cases h : c.toNat ≥ 65 ∧ c.toNat ≤ 90
  · right
    refine ⟨c.toNat, h.1, h.2, (Char.ofNat_toNat c).symm, ?_⟩
    unfold Char.toLower
    simp only [h, and_self, if_true]
  · left
    unfold Char.toLower
    simp only [h, if_false]

theorem toLower_b (c : Char) : c.toLower = 'b' ↔ c = 'b' ∨ c = 'B' := by
  constructor
  · intro h1
    rcases toLower_cases c with h2 | ⟨n, hlo, hhi, hc, hu⟩
    · left; rw [← h2, h1]
    · rw [hu] at h1
      subst hc
      interval_cases n <;> first | (right; rfl) | (exfalso; revert h1; decide)
  · rintro (rfl | rfl) <;> decide

theorem toLower_a (c : Char) : c.toLower = 'a' ↔ c = 'a' ∨ c = 'A' := by
  constructor
  · intro h1
    rcases toLower_cases c with h2 | ⟨n, hlo, hhi, hc, hu⟩
    · left; rw [← h2, h1]
    · rw [hu] at h1
      subst hc
      interval_cases n <;> first | (right; rfl) | (exfalso; revert h1; decide)
  · rintro (rfl | rfl) <;> decide

theorem toLower_x (c : Char) : c.toLower = 'x' ↔ c = 'x' ∨ c = 'X' := by
  constructor
  · intro h1
    rcases toLower_cases c with h2 | ⟨n, hlo, hhi, hc, hu⟩
    · left; rw [← h2, h1]
    · rw [hu] at h1
      subst hc
      interval_cases n <;> first | (right; rfl) | (exfalso; revert h1; decide)
  · rintro (rfl | rfl) <;> decide

theorem isPrefixOf_bax_iff (l : List Char) :
    List.isPrefixOf ['b', 'a', 'x'] (l.map Char.toLower) = true ↔
      matchesAt l ['b', 'a', 'x'] = true := by
  rw [matchesAt_bax, List.isPrefixOf_iff_prefix]
  constructor
  · rintro ⟨t, ht⟩
    match l, ht with
    | b :: a :: x :: post, ht =>
      simp only [List.map_cons, List.cons_append, List.nil_append, List.cons.injEq] at ht
      exact ⟨b, a, x, post, rfl, (toLower_b b).1 ht.1.symm, (toLower_a a).1 ht.2.1.symm,
        (toLower_x x).1 ht.2.2.1.symm⟩
    | [], ht => simp at ht
    | [_], ht => simp at ht
    | [_, _], ht => simp at ht
  · rintro ⟨b, a, x, post, rfl, hb, ha, hx⟩
    refine ⟨post.map Char.toLower, ?_⟩
    simp only [List.map_cons, List.cons_append, List.nil_append, (toLower_b b).2 hb,
      (toLower_a a).2 ha, (toLower_x x).2 hx]

theorem first_finder_bax (input : List Char) (pos : Nat) :
    rangeEmpty (first_finder ['b', 'a', 'x'] input pos) =
      !((input.map Char.toLower).tails.any (fun t => List.isPrefixOf ['b', 'a', 'x'] t)) := by
  induction input generalizing pos with
  | nil => simp [first_finder, rangeEmpty, List.tails]
  | cons c cs ih =>
    by_cases hm : matchesAt (c :: cs) ['b', 'a', 'x'] = true
    · have hp := (isPrefixOf_bax_iff (c :: cs)).2 hm
      simp only [List.map_cons] at hp
      simp [first_finder, hm, rangeEmpty, List.tails, hp]
    · have hp : List.isPrefixOf ['b', 'a', 'x'] ((c :: cs).map Char.toLower) = false := by
        rw [← Bool.not_eq_true, isPrefixOf_bax_iff]; exact hm
      simp only [List.map_cons] at hp
      simp only [first_finder, List.isEmpty_cons, Bool.false_eq_true, if_false, hm,
        List.map_cons, List.tails, List.any_cons, hp, Bool.false_or]
      exact ih (pos + 1)

/-- The test of the scan is the test of the specification. -/
theorem isLegacy_eq_spec (e : ExternalResource) : isLegacy e = specContainsBax e.MetaType := by
  have hd : ("bax" : String).data = ['b', 'a', 'x'] := rfl
  simp only [isLegacy, ifind_first, hd, first_finder_bax, specContainsBax, Bool.not_not]

/-- C15: the collect-then-remove loops of lines 53-68 compute the single filtering pass of the
specification, and when the rewrite of a loaded descriptor reaches `Save` the top-level list
being saved is that pass over the input's top-level list: the entries whose metatype does not
contain `bax`, each unchanged and in their original order, followed by the new primary
resource as the last element. -/
theorem order_round_trip (w : World) (settings : Settings) (errors : List String)
    (filename : String) (saved input : DataSet)
    (hload : w.load settings.datasetXmlFilename = some input)
    (hsave : Event.save filename saved ∈ (WriteDatasetXmlOutput w settings errors).trace) :
    (∀ primary, (removeLegacy (scanLegacy input.externalResources [])
        input.externalResources).Add primary =
      specFilteringPass input.externalResources primary) ∧
    ∃ primary, saved.externalResources = specFilteringPass input.externalResources primary ∧
      saved.externalResources.getLast? = some primary ∧
      primary.MetaType = "PacBio.SubreadFile.SubreadBamFile" ∧
      List.Sublist (List.filter (fun e => !specContainsBax e.MetaType) input.externalResources)
        input.externalResources := by
  have hfilter : List.filter (fun e => !isLegacy e) input.externalResources =
      List.filter (fun e => !specContainsBax e.MetaType) input.externalResources := by
    apply List.filter_congr
    intro x _
    rw [isLegacy_eq_spec]
  have hloops : ∀ primary, (removeLegacy (scanLegacy input.externalResources [])
        input.externalResources).Add primary =
      specFilteringPass input.externalResources primary := by
    intro primary
    rw [removeLegacy_scanLegacy, hfilter]
    rfl
  obtain ⟨input2, hload2, -, -, rfl⟩ := save_mem_trace hsave
  rw [hload] at hload2
  cases hload2
  refine ⟨hloops, mainBam w settings, ?_, ?_, mainBam_MetaType w settings,
    List.filter_sublist _⟩
  · rw [rewriteDataSet_externalResources]
    exact hloops _
  · rw [rewriteDataSet_externalResources]; simp

/-- The rewrite of `exampleDataSet` keeps the one resource that is not a per-movie file and
appends the primary resource. -/
theorem order_round_trip_witness :
    exampleWorld.load exampleSettings.datasetXmlFilename = some exampleDataSet ∧
      (rewriteDataSet exampleWorld exampleSettings exampleDataSet).externalResources =
        [ExternalResource.new "PacBio.Adapter.Fasta" "file:///data/adapters.fasta",
         ExternalResource.mk "PacBio.SubreadFile.SubreadBamFile" "file:///data/jobs/42/run1.bam"
           [⟨"PacBio.Index.PacBioIndex", "file:///data/jobs/42/run1.bam.pbi"⟩] []] ∧
      ((∀ primary, (removeLegacy (scanLegacy exampleDataSet.externalResources [])
          exampleDataSet.externalResources).Add primary =
        specFilteringPass exampleDataSet.externalResources primary) ∧
      ∃ primary,
        (rewriteDataSet exampleWorld exampleSettings exampleDataSet).externalResources =
          specFilteringPass exampleDataSet.externalResources primary ∧
        (rewriteDataSet exampleWorld exampleSettings exampleDataSet).externalResources.getLast?
          = some primary ∧
        primary.MetaType = "PacBio.SubreadFile.SubreadBamFile" ∧
        List.Sublist
          (List.filter (fun e => !specContainsBax e.MetaType) exampleDataSet.externalResources)
          exampleDataSet.externalResources) :=
  ⟨by decide, by decide,
    order_round_trip exampleWorld exampleSettings [] "movieA.dataset.xml"
      (rewriteDataSet exampleWorld exampleSettings exampleDataSet) exampleDataSet
      (by decide) (by decide)⟩

end Bax2Bam
